import Mathlib

set_option autoImplicit false

/-! Shallow embedding of the metadata parsing and merge engine of the
platformapi-namespace command-line client. The definitions below are
translated from src/types.rs, src/main.rs, src/metadata.rs and
src/labels.rs; external collaborators (the YAML deserializer, the file
reader, the klap label grammar whose labels.pest file is not in the
repository) are modelled as parameters or from the specification text and
are marked as such in their doc comments. -/

/-- JSON-like values, modelling serde_json Value as used for the
extra-properties bag and for the serialized wire payload. -/
inductive JVal where
  | null
  | bool (b : Bool)
  | num (n : Int)
  | str (s : String)
  | arr (xs : List JVal)
  | obj (fs : List (String × JVal))

/-- Translation of the struct VaultServiceAccounts of src/types.rs:
a flag for the implicit default account and the ordered account list. -/
structure VaultServiceAccounts where
  include_default : Bool
  service_accounts : List String
deriving Repr, DecidableEq

/-- Translation of VaultServiceAccounts::new of src/types.rs, which goes
through the Default impl: include_default is true, the list empty. -/
def VaultServiceAccounts.new : VaultServiceAccounts :=
  { include_default := true, service_accounts := [] }

/-- Translation of VaultServiceAccounts::new_no_default of src/types.rs. -/
def VaultServiceAccounts.new_no_default : VaultServiceAccounts :=
  { include_default := false, service_accounts := [] }

/-- Translation of VaultServiceAccounts::is_empty of src/types.rs: it
checks only the service_accounts vector and ignores include_default. -/
def VaultServiceAccounts.is_empty (v : VaultServiceAccounts) : Bool :=
  v.service_accounts.isEmpty

/-- Translation of VaultServiceAccounts::service_accounts_string of
src/types.rs: empty string when the list is empty and include_default is
false, otherwise the comma join of the list, with a literal leading
"default," when include_default is true. -/
def VaultServiceAccounts.service_accounts_string (v : VaultServiceAccounts) : String :=
  if v.service_accounts.isEmpty && !v.include_default then ""
  else
    let x := String.intercalate "," v.service_accounts
    if v.include_default then "default," ++ x else x

/-- Translation of the Extend impl for VaultServiceAccounts of
src/types.rs: every element equal to the literal "default" sets
include_default and is dropped, every other element is pushed in order. -/
def VaultServiceAccounts.extend (v : VaultServiceAccounts) (accs : List String) :
    VaultServiceAccounts :=
  accs.foldl
    (fun v acc =>
      if acc = "default" then { v with include_default := true }
      else { v with service_accounts := v.service_accounts ++ [acc] })
    v

/-- Splitting a character list on a separator character, the way the Rust
str split method behaves: splitting the empty input yields one empty
piece, and separators at the ends yield empty pieces. -/
def splitOnChar (sep : Char) : List Char → List (List Char)
  | [] => [[]]
  | c :: cs =>
    let r := splitOnChar sep cs
    if c = sep then [] :: r
    else
      match r with
      | [] => [[c]]
      | h :: t => (c :: h) :: t

/-- Whitespace trim at both ends of a character list, modelling the Rust
str trim used on each raw vault service-account element. -/
def trimChars (l : List Char) : List Char :=
  ((l.dropWhile Char.isWhitespace).reverse.dropWhile Char.isWhitespace).reverse

/-- Translation of the vault service-account accumulation of src/main.rs
(the svcac-raw and svcac option handling): a raw override is split on
commas, each element trimmed, fed from new_no_default; otherwise the
default construction is used; the repeatable additions are then fed into
the same Extend rule. -/
def vsaBuild (rawOverride : Option String) (additions : List String) :
    VaultServiceAccounts :=
  let vsas :=
    match rawOverride with
    | some val =>
      VaultServiceAccounts.new_no_default.extend
        ((splitOnChar ',' val.data).map (fun cs => String.mk (trimChars cs)))
    | none => VaultServiceAccounts.new
  vsas.extend additions

/-- Character-list matcher for the TTL regular expression of src/main.rs,
namely 1([hd]|[0-9]h)|2([hd]|[0-4]h)|[3-7][hd]|[89]h anchored at both
ends; the character classes are written out element by element. -/
def ttlMatch : List Char → Bool
  | [] => false
  | [_] => false
  | [a, b] =>
    ((a == '1' || a == '2' || a == '3' || a == '4' || a == '5' || a == '6'
        || a == '7') && (b == 'h' || b == 'd'))
      || ((a == '8' || a == '9') && b == 'h')
  | [a, b, c] =>
    ((a == '1' && (b == '0' || b == '1' || b == '2' || b == '3' || b == '4'
        || b == '5' || b == '6' || b == '7' || b == '8' || b == '9'))
      && c == 'h')
      || ((a == '2' && (b == '0' || b == '1' || b == '2' || b == '3'
        || b == '4')) && c == 'h')
  | _ :: _ :: _ :: _ :: _ => false

/-- Translation of validate_ttl of src/main.rs: ok when the regular
expression matches, otherwise the fixed error message. -/
def validate_ttl (inp : String) : Except String Unit :=
  if ttlMatch inp.data then Except.ok ()
  else Except.error "Valid TTLs are 1-24h or 1-7d"

/-- The thirty-one strings accepted by the TTL validator. -/
def ttlAccepted : List String :=
  ["1h", "2h", "3h", "4h", "5h", "6h", "7h", "8h", "9h", "10h", "11h",
   "12h", "13h", "14h", "15h", "16h", "17h", "18h", "19h", "20h", "21h",
   "22h", "23h", "24h", "1d", "2d", "3d", "4d", "5d", "6d", "7d"]

/-- Parse errors of the label grammar, per the specification shape with
the offending input and a reason. -/
structure PError where
  input : String
  reason : String
deriving Repr, DecidableEq

/-- Rendering of a parse error into a message, modelling the Display of
the underlying parser error that src interpolates into its messages. -/
def PError.render (e : PError) : String :=
  e.input ++ ": " ++ e.reason

/-- Modelled from the spec: the key character set of the label grammar
(labels.pest is not under src) — alphanumeric, dash, underscore, dot and
the slash of a qualified key. -/
def isKeyChar (c : Char) : Bool :=
  c.isAlphanum || c == '-' || c == '_' || c == '.' || c == '/'

/-- Modelled from the spec: a key is valid when nonempty and made of key
characters. -/
def validKey (k : List Char) : Bool :=
  !k.isEmpty && k.all isKeyChar

/-- Splitting a character list at the first occurrence of a separator,
none when the separator is absent; this is the split-on-first-occurrence
that the annotation form requires. -/
def splitFirst (sep : Char) : List Char → Option (List Char × List Char)
  | [] => none
  | c :: cs =>
    if c = sep then some ([], cs)
    else
      match splitFirst sep cs with
      | some (k, v) => some (c :: k, v)
      | none => none

/-- Modelled from the spec: the single-pair form of the label grammar, a
key and a value separated by the first equals sign. -/
def parsePair (s : String) : Except PError (String × String) :=
  match splitFirst '=' s.data with
  | none => Except.error { input := s, reason := "missing separator" }
  | some (k, v) =>
    if validKey k then Except.ok (String.mk k, String.mk v)
    else Except.error { input := s, reason := "invalid key" }

/-- Modelled from the spec: the block form of the label grammar, one
key-colon-value pair per line, blank lines ignored, leading spaces of the
value dropped. -/
def parseBlockLines : List (List Char) → Except PError (List (String × String))
  | [] => Except.ok []
  | line :: rest =>
    if (trimChars line).isEmpty then parseBlockLines rest
    else
      match splitFirst ':' line with
      | none => Except.error { input := String.mk line, reason := "missing separator" }
      | some (k, v) =>
        if validKey k then
          match parseBlockLines rest with
          | Except.error e => Except.error e
          | Except.ok kvs =>
            Except.ok ((String.mk k, String.mk (v.dropWhile (fun c => c == ' '))) :: kvs)
        else Except.error { input := String.mk line, reason := "invalid key" }

/-- Modelled from the spec: parsing a whole block of label lines. -/
def parseLabelsBlock (s : String) : Except PError (List (String × String)) :=
  parseBlockLines (splitOnChar '\n' s.data)

/-- Translation of labels_from_str of src/labels.rs: the parse result is
unwrapped, so a grammar rejection is a panic of the process; the panic is
modelled as none. The grammar itself is modelled from the spec because
labels.pest is not under src. -/
def labels_from_str (input : String) : Option (List (String × String)) :=
  match parseLabelsBlock input with
  | Except.ok r => some r
  | Except.error _ => none

/-- Modelled from the spec: the klap entry point used by src/main.rs and
src/metadata.rs, accepting either a single key-equals-value pair or a
block of key-colon-value lines. -/
def labels_from_str_either (s : String) : Except PError (List (String × String)) :=
  if s.data.contains '=' && !(s.data.contains '\n') then
    match parsePair s with
    | Except.ok kv => Except.ok [kv]
    | Except.error e => Except.error e
  else parseLabelsBlock s

/-- Modelled from the spec: the klap single-annotation entry point used by
src/main.rs and src/metadata.rs, splitting on the first equals sign so
that values may contain further equals signs. -/
def annotation_from_str (s : String) : Except PError (String × String) :=
  parsePair s

/-- Translation of the Error enum of src/types.rs, together with the
configuration variant that the specification gives to the name-resolution
code missing from src. -/
inductive Error where
  | environment (s : String)
  | oauth (code : Nat) (body : String)
  | api (code : Nat) (body : String)
  | apiTimeout
  | opt (option_name raw_value detail : String)
  | unknown (s : String)
  | configuration (detail : String)
deriving Repr, DecidableEq

/-- Label and annotation mappings, modelling the klap map type as an
insertion-ordered association list with unique keys, per the data model
of the specification. -/
abbrev LabelMap := List (String × String)

/-- Map insertion with overwrite: an existing binding of the key keeps
its place and gets the new value, a new key is appended. -/
def upsert (m : LabelMap) (k v : String) : LabelMap :=
  match m with
  | [] => [(k, v)]
  | (k0, v0) :: rest =>
    if k0 = k then (k0, v) :: rest else (k0, v0) :: upsert rest k v

/-- Feeding a list of parsed pairs into a map in order, modelling the
Extend of the map type used by src. -/
def extendMap (m : LabelMap) (ps : List (String × String)) : LabelMap :=
  ps.foldl (fun m kv => upsert m kv.1 kv.2) m

/-- Translation of match_labels of src/metadata.rs: each CLI label string
is parsed and its pairs are fed into the map; a parse failure becomes an
option error naming the labels option, the raw value, and the parse
detail behind a newline. -/
def match_labels (labelOpts : List String) (labels : LabelMap) : Except Error LabelMap :=
  match labelOpts with
  | [] => Except.ok labels
  | s :: rest =>
    match labels_from_str_either s with
    | Except.error e => Except.error (Error.opt "labels" s ("\n" ++ e.render))
    | Except.ok l => match_labels rest (extendMap labels l)

/-- Translation of match_annotations of src/metadata.rs: each CLI
annotation string is parsed as a single pair and inserted; a parse
failure becomes an option error naming the annotation option. -/
def match_annotations (annoOpts : List String) (annos : LabelMap) : Except Error LabelMap :=
  match annoOpts with
  | [] => Except.ok annos
  | s :: rest =>
    match annotation_from_str s with
    | Except.error e => Except.error (Error.opt "annotation" s ("\n" ++ e.render))
    | Except.ok kv => match_annotations rest (upsert annos kv.1 kv.2)

/-- Translation of the Metadata struct of src/metadata.rs: an optional
name and the label and annotation mappings, defaulting to empty. -/
structure Metadata where
  name : Option String
  labels : LabelMap
  annotations : LabelMap
deriving Repr, DecidableEq

/-- Translation of the Manifest struct of src/metadata.rs: a document
whose metadata key holds the Metadata. -/
structure Manifest where
  metadata : Metadata
deriving Repr, DecidableEq

/-- Translation of parse_metadata of src/metadata.rs. The external file
reader and YAML deserializer are parameters. An input starting with an at
sign names a file: a failed open is mapped to an option error carrying
the option name and raw value, while a deserialization failure in either
branch is mapped by map_err to the generic unknown error. -/
def parse_metadata (fileRead : String → Except String String)
    (yamlFromStr : String → Except String Manifest) (input : String) :
    Except Error Metadata :=
  match input.data with
  | '@' :: rest =>
    match fileRead (String.mk rest) with
    | Except.error e =>
      Except.error (Error.opt "metadata-from-manifest" input e)
    | Except.ok content =>
      match yamlFromStr content with
      | Except.ok m => Except.ok m.metadata
      | Except.error e => Except.error (Error.unknown e)
  | _ =>
    match yamlFromStr input with
    | Except.ok m => Except.ok m.metadata
    | Except.error e => Except.error (Error.unknown e)

/-- Label lists as serialized on the wire, key-value pairs in order. -/
abbrev Labels := List (String × String)

/-- The extra-properties bag, modelling the string-to-value map. -/
abbrev ExtraProps := List (String × JVal)

/-- Translation of the NSDef struct of src/types.rs; the namespace field
carries a trailing underscore because namespace is a reserved word. -/
structure NSDef where
  productkey : String
  ttl : String
  cluster : String
  namespace_ : String
  labels : Labels
  annotations : Labels
  vault_service_accounts : VaultServiceAccounts
  extra_properties : ExtraProps

/-- Serialization of VaultServiceAccounts per its Serialize impl in
src/types.rs: an object with the single field service_account_name
holding the rendered string. -/
def serializeVSA (v : VaultServiceAccounts) : JVal :=
  JVal.obj [("service_account_name", JVal.str v.service_accounts_string)]

/-- Serialization of a key-value list as an array of key and value
objects, per the wire shape of the specification. -/
def serializeKVList (l : Labels) : JVal :=
  JVal.arr (l.map fun kv => JVal.obj [("key", JVal.str kv.1), ("value", JVal.str kv.2)])

/-- Serialization of NSDef following the serde attributes of src/types.rs:
labels and annotations are skipped when empty, vault_service_accounts is
renamed to vault_config and skipped when VaultServiceAccounts::is_empty
holds, and extra_properties is flattened into the top level. -/
def serializeNSDef (d : NSDef) : List (String × JVal) :=
  [("productkey", JVal.str d.productkey), ("ttl", JVal.str d.ttl),
      ("cluster", JVal.str d.cluster), ("namespace", JVal.str d.namespace_)]
    ++ (if d.labels.isEmpty then [] else [("labels", serializeKVList d.labels)])
    ++ (if d.annotations.isEmpty then []
        else [("annotations", serializeKVList d.annotations)])
    ++ (if d.vault_service_accounts.is_empty then []
        else [("vault_config", serializeVSA d.vault_service_accounts)])
    ++ d.extra_properties

/-- Translation of the derive_builder builder for NSDef: every field is
optional until build, and the four fields without a builder default are
required. -/
structure NSDefBuilder where
  productkey : Option String := none
  ttl : Option String := none
  cluster : Option String := none
  namespace_ : Option String := none
  labels : Option Labels := none
  annotations : Option Labels := none
  vault_service_accounts : Option VaultServiceAccounts := none
  extra_properties : Option ExtraProps := none

/-- Translation of the generated build method: an error when a required
field is unset, otherwise the struct with builder defaults filled in. -/
def NSDefBuilder.build (b : NSDefBuilder) : Except String NSDef :=
  match b.productkey, b.ttl, b.cluster, b.namespace_ with
  | some pk, some t, some c, some n =>
    Except.ok
      { productkey := pk, ttl := t, cluster := c, namespace_ := n,
        labels := b.labels.getD [], annotations := b.annotations.getD [],
        vault_service_accounts :=
          b.vault_service_accounts.getD VaultServiceAccounts.new,
        extra_properties := b.extra_properties.getD [] }
  | _, _, _, _ => Except.error "missing required field"

/-- Translation of strip_prefix_if_exists of src/main.rs: when the name
starts with the product key followed by a dash, drop that many leading
characters, otherwise return the name unchanged. -/
def strip_prefix_if_exists (name pk : String) : String :=
  if (pk.data ++ ['-']).isPrefixOf name.data then
    String.mk (name.data.drop (pk.data.length + 1))
  else name

/-- The explicit name argument: either the sentinel placeholder asking
for the manifest name or a verbatim name. -/
inductive NameArg where
  | fromManifest
  | explicitName (s : String)

/-- Modelled from the spec: the name-resolution step of the merge engine
is not implemented under src (src/main.rs uses the name argument
verbatim), so it is modelled from the specification text: the sentinel
requires a manifest name, and in that case the product-key strip is
mandatory, failing with a configuration error when the prefix is absent;
an explicit name is used verbatim, with a best-effort strip when the
strip flag is set. -/
def resolve_name (pk : String) (arg : NameArg) (manifestName : Option String)
    (stripFlag : Bool) : Except Error String :=
  match arg with
  | NameArg.fromManifest =>
    match manifestName with
    | none =>
      Except.error
        (Error.configuration "name requested from manifest but manifest has no name")
    | some n =>
      if (pk.data ++ ['-']).isPrefixOf n.data then
        Except.ok (String.mk (n.data.drop (pk.data.length + 1)))
      else
        Except.error
          (Error.configuration
            ("expected name to start with the product key and a dash, got " ++ n))
  | NameArg.explicitName s =>
    Except.ok (if stripFlag then strip_prefix_if_exists s pk else s)

/-- Presence of a key among the fields of a serialized object. -/
def hasKey (l : List (String × JVal)) (k : String) : Bool :=
  l.any (fun kv => kv.1 == k)

/-- Discriminator for the option-error variant of the Error enum. -/
def Error.isOpt : Error → Bool
  | Error.opt _ _ _ => true
  | _ => false

/-- A concrete payload whose vault accumulator is the default one, with
no labels, annotations or extra properties. -/
def exampleDef : NSDef :=
  { productkey := "pk", ttl := "24h", cluster := "c", namespace_ := "ns",
    labels := [], annotations := [],
    vault_service_accounts := VaultServiceAccounts.new,
    extra_properties := [] }

theorem defaultPre_ne_empty (x : String) : ("default," ++ x) ≠ "" := by
  intro h
  have h2 : ("default," ++ x).data = [] := congrArg String.data h
  rw [String.data_append] at h2
  exact absurd (List.append_eq_nil.mp h2).1 (by decide)

theorem vsa_string_empty_iff (v : VaultServiceAccounts) :
    v.service_accounts_string = ""
      ↔ v.include_default = false
        ∧ String.intercalate "," v.service_accounts = "" := by
  rcases v with ⟨inc, accs⟩
  cases inc
  · cases accs with
    | nil =>
      constructor
      · intro _; exact ⟨rfl, rfl⟩
      · intro _; rfl
    | cons a as =>
      constructor
      · intro h; exact ⟨rfl, h⟩
      · intro h; exact h.2
  · have hrw : VaultServiceAccounts.service_accounts_string ⟨true, accs⟩
        = "default," ++ String.intercalate "," accs := by
      simp [VaultServiceAccounts.service_accounts_string]
    rw [hrw]
    constructor
    · intro h
      exact absurd h (defaultPre_ne_empty _)
    · rintro ⟨h, -⟩
      exact Bool.noConfusion h

theorem extend_accounts (accs : List String) (v : VaultServiceAccounts) :
    (v.extend accs).service_accounts
      = v.service_accounts ++ accs.filter (fun a => a != "default") := by
  induction accs generalizing v with
  | nil => simp [VaultServiceAccounts.extend]
  | cons a rest ih =>
    have hstep : VaultServiceAccounts.extend v (a :: rest)
        = VaultServiceAccounts.extend
            (if a = "default" then { v with include_default := true }
             else { v with service_accounts := v.service_accounts ++ [a] })
            rest := rfl
    rw [hstep]
    by_cases ha : a = "default"
    · rw [if_pos ha, ih]
      subst ha
      simp [List.filter_cons]
    · rw [if_neg ha, ih]
      simp [List.filter_cons, ha]

theorem extend_include_default (accs : List String) (v : VaultServiceAccounts) :
    (v.extend accs).include_default
      = (v.include_default || accs.contains "default") := by
  induction accs generalizing v with
  | nil => simp [VaultServiceAccounts.extend]
  | cons a rest ih =>
    have hstep : VaultServiceAccounts.extend v (a :: rest)
        = VaultServiceAccounts.extend
            (if a = "default" then { v with include_default := true }
             else { v with service_accounts := v.service_accounts ++ [a] })
            rest := rfl
    rw [hstep]
    by_cases ha : a = "default"
    · rw [if_pos ha, ih]
      subst ha
      simp
    · rw [if_neg ha, ih]
      simp [Ne.symm ha]

theorem contains_filter_default (l : List String) :
    (l.filter (fun a => a != "default")).contains "default" = false := by
  induction l with
  | nil => rfl
  | cons a rest ih =>
    by_cases ha : a = "default"
    · subst ha; simp [List.filter_cons, ih]
    · simp [List.filter_cons, ha, List.contains_cons, ih, Ne.symm ha]

/-- C3: for the accumulator outputs, the rendered string characterization:
the string is empty exactly when include_default is false and the comma
join of the accounts is empty; the raw override can place an empty string
element into the accounts, so emptiness of the join is the right-hand
side rather than emptiness of the list; the two concrete accumulation
examples of the specification hold as stated. -/
theorem vsa_build_rendering :
    (∀ (raw : Option String) (adds : List String),
        (vsaBuild raw adds).service_accounts_string = ""
          ↔ (vsaBuild raw adds).include_default = false
            ∧ String.intercalate "," (vsaBuild raw adds).service_accounts = "")
    ∧ (vsaBuild none []).service_accounts_string = "default,"
    ∧ (vsaBuild (some "a, b") ["default"]).service_accounts_string = "default,a,b" :=
  ⟨fun _ _ => vsa_string_empty_iff _, by decide, by decide⟩

/-- C3 counterexample: the raw override consisting of the empty string
yields the accounts list with one empty element, whose rendered string is
empty even though the list is not empty, against the claimed equivalence. -/
theorem vsa_build_rendering_counterexample :
    (vsaBuild (some "") []).service_accounts_string = ""
    ∧ vsaBuild (some "") []
        = { include_default := false, service_accounts := [""] } := by
  decide

/-- C8: the Extend rule sets include_default exactly when an element is
the literal default and appends exactly the other elements in order, so
no accumulator built by the option handling ever has the literal default
in its accounts list. -/
theorem vsa_default_handling :
    (∀ (v : VaultServiceAccounts) (accs : List String),
        (v.extend accs).include_default
            = (v.include_default || accs.contains "default")
        ∧ (v.extend accs).service_accounts
            = v.service_accounts ++ accs.filter (fun a => a != "default"))
    ∧ ∀ (raw : Option String) (adds : List String),
        (vsaBuild raw adds).service_accounts.contains "default" = false := by
  constructor
  · intro v accs
    exact ⟨extend_include_default accs v, extend_accounts accs v⟩
  · intro raw adds
    cases raw with
    | none =>
      show ((VaultServiceAccounts.new.extend adds).service_accounts).contains
          "default" = false
      rw [extend_accounts]
      rw [show VaultServiceAccounts.new.service_accounts = [] from rfl,
        List.nil_append]
      exact contains_filter_default adds
    | some val =>
      show (((VaultServiceAccounts.new_no_default.extend
          ((splitOnChar ',' val.data).map
            (fun cs => String.mk (trimChars cs)))).extend adds).service_accounts).contains
          "default" = false
      rw [extend_accounts, extend_accounts]
      rw [show VaultServiceAccounts.new_no_default.service_accounts = [] from rfl,
        List.nil_append]
      rw [List.contains_eq_any_beq, List.any_append,
        ← List.contains_eq_any_beq, ← List.contains_eq_any_beq,
        contains_filter_default, contains_filter_default]
      rfl

/-- C7: the TTL validator accepts exactly the thirty-one strings from 1h
to 24h and 1d to 7d, and in particular rejects 25h, 8d and 0h with the
fixed error message. -/
theorem validate_ttl_exact :
    (∀ s : String, validate_ttl s = Except.ok () ↔ s ∈ ttlAccepted)
    ∧ validate_ttl "25h" = Except.error "Valid TTLs are 1-24h or 1-7d"
    ∧ validate_ttl "8d" = Except.error "Valid TTLs are 1-24h or 1-7d"
    ∧ validate_ttl "0h" = Except.error "Valid TTLs are 1-24h or 1-7d" := by
  refine ⟨fun s => ⟨fun h => ?_, fun h => ?_⟩, rfl, rfl, rfl⟩
  · obtain ⟨l⟩ := s
    unfold validate_ttl at h
    split at h
    next hm =>
      have hm2 : ttlMatch l = true := hm
      clear hm h
      rcases l with _ | ⟨a, _ | ⟨b, _ | ⟨c, _ | ⟨d, t⟩⟩⟩⟩
      · simp [ttlMatch] at hm2
      · simp [ttlMatch] at hm2
      · simp only [ttlMatch, Bool.or_eq_true, Bool.and_eq_true,
          beq_iff_eq, or_assoc] at hm2
        rcases hm2 with
            ⟨rfl | rfl | rfl | rfl | rfl | rfl | rfl, rfl | rfl⟩
          | ⟨rfl | rfl, rfl⟩ <;> decide
      · simp only [ttlMatch, Bool.or_eq_true, Bool.and_eq_true,
          beq_iff_eq, or_assoc] at hm2
        rcases hm2 with
            ⟨⟨rfl, rfl | rfl | rfl | rfl | rfl | rfl | rfl | rfl | rfl | rfl⟩, rfl⟩
          | ⟨⟨rfl, rfl | rfl | rfl | rfl | rfl⟩, rfl⟩ <;> decide
      · simp [ttlMatch] at hm2
    next hm => exact Except.noConfusion h
  · simp only [ttlAccepted, List.mem_cons, List.not_mem_nil, or_false] at h
    rcases h with rfl | rfl | rfl | rfl | rfl | rfl | rfl | rfl | rfl | rfl |
      rfl | rfl | rfl | rfl | rfl | rfl | rfl | rfl | rfl | rfl | rfl | rfl |
      rfl | rfl | rfl | rfl | rfl | rfl | rfl | rfl | rfl <;> rfl

theorem upsert_lookup (m : LabelMap) (k v : String) :
    (upsert m k v).lookup k = some v := by
  induction m with
  | nil => simp [upsert, List.lookup]
  | cons kv0 rest ih =>
    rcases kv0 with ⟨k0, v0⟩
    by_cases hk : k0 = k
    · subst hk
      simp [upsert, List.lookup]
    · have hb : (k == k0) = false := by
        simp [Ne.symm hk]
      simp [upsert, hk, List.lookup, hb, ih]

theorem upsert_upsert (m : LabelMap) (k v1 v2 : String) :
    upsert (upsert m k v1) k v2 = upsert m k v2 := by
  induction m with
  | nil => simp [upsert]
  | cons kv0 rest ih =>
    rcases kv0 with ⟨k0, v0⟩
    by_cases hk : k0 = k
    · subst hk
      simp [upsert]
    · simp [upsert, hk, ih]

/-- C6: insertion of a CLI pair overwrites the binding of the same key,
a later insertion of the same key wins over an earlier one, and the
precedence example of the specification computes as stated: the manifest
label env prod merged with the CLI label env equals staging gives env
staging. -/
theorem merge_cli_overwrites :
    (∀ (m : LabelMap) (k v : String), (upsert m k v).lookup k = some v)
    ∧ (∀ (m : LabelMap) (k v1 v2 : String),
        upsert (upsert m k v1) k v2 = upsert m k v2)
    ∧ match_labels ["env=staging"] [("env", "prod")]
        = Except.ok [("env", "staging")] :=
  ⟨upsert_lookup, upsert_upsert, rfl⟩

/-- C9: merging the same CLI label entry twice is the same as merging it
once, for every starting mapping. -/
theorem merge_idempotent (m : LabelMap) :
    match_labels ["a=1", "a=1"] m = match_labels ["a=1"] m := by
  show Except.ok (extendMap (extendMap m [("a", "1")]) [("a", "1")])
      = Except.ok (extendMap m [("a", "1")])
  simp only [extendMap, List.foldl]
  exact congrArg Except.ok (upsert_upsert m "a" "1" "1")

/-- C2: name resolution at the sentinel placeholder, modelled from the
specification: the manifest name foo-bar under product key foo resolves
to bar, the manifest name baz without the prefix is a configuration
error, and a missing manifest name is the fatal configuration error of
the specification for every product key and strip flag. -/
theorem resolve_name_sentinel :
    resolve_name "foo" NameArg.fromManifest (some "foo-bar") false
        = Except.ok "bar"
    ∧ resolve_name "foo" NameArg.fromManifest (some "baz") false
        = Except.error (Error.configuration
            ("expected name to start with the product key and a dash, got "
              ++ "baz"))
    ∧ ∀ (pk : String) (flag : Bool),
        resolve_name pk NameArg.fromManifest none flag
          = Except.error (Error.configuration
              "name requested from manifest but manifest has no name") :=
  ⟨rfl, rfl, fun _ _ => rfl⟩

/-- C10: with product key foo and name foo-, the strip produces the empty
string, and the builder assembles the payload with the empty namespace
and no error. -/
theorem strip_to_empty_namespace :
    strip_prefix_if_exists "foo-" "foo" = ""
    ∧ (NSDefBuilder.build
        { productkey := some "foo", ttl := some "24h", cluster := some "c",
          namespace_ := some (strip_prefix_if_exists "foo-" "foo"),
          labels := some [], annotations := some [],
          vault_service_accounts := some VaultServiceAccounts.new,
          extra_properties := some [] }).map NSDef.namespace_
        = Except.ok "" :=
  ⟨rfl, rfl⟩

/-- C5 amended: labels_from_str is the unwrap of the grammar parse, so it
returns the parsed pairs exactly on grammar-accepted inputs and panics
(modelled as none) exactly on grammar-rejected inputs. -/
theorem labels_from_str_behavior :
    (∀ (s : String) (r : List (String × String)),
        parseLabelsBlock s = Except.ok r → labels_from_str s = some r)
    ∧ ∀ (s : String) (e : PError),
        parseLabelsBlock s = Except.error e → labels_from_str s = none := by
  constructor <;> (intro s x h; simp [labels_from_str, h])

theorem labels_from_str_behavior_witness :
    labels_from_str "a: b" = some [("a", "b")]
    ∧ labels_from_str "x" = none :=
  ⟨labels_from_str_behavior.1 "a: b" [("a", "b")] rfl,
   labels_from_str_behavior.2 "x"
     { input := "x", reason := "missing separator" } rfl⟩

/-- C5 counterexample: on an input without a separator the parse fails
and the unwrap panics, modelled as none, against the claim that the
function never panics on any input. -/
theorem labels_from_str_counterexample : labels_from_str "nosep" = none := by
  decide

/-- C4 counterexample: a malformed inline manifest is mapped by
parse_metadata to the generic unknown error carrying only the
deserializer text, not to the option-error variant. -/
theorem option_error_counterexample :
    parse_metadata (fun _ => Except.error "no file")
        (fun _ => Except.error "bad yaml") "a: b"
      = Except.error (Error.unknown "bad yaml")
    ∧ (Error.unknown "bad yaml").isOpt = false :=
  ⟨rfl, rfl⟩

/-- C4 amended: malformed label and annotation tokens become option
errors naming the option and the raw value, and a failed open of an
at-file manifest reference becomes an option error as well, but a
manifest deserialization failure becomes the generic unknown error. -/
theorem option_error_amended :
    (∀ (m : LabelMap) (s : String) (rest : List String) (e : PError),
        labels_from_str_either s = Except.error e →
        match_labels (s :: rest) m
          = Except.error (Error.opt "labels" s ("\n" ++ e.render)))
    ∧ (∀ (m : LabelMap) (s : String) (rest : List String) (e : PError),
        annotation_from_str s = Except.error e →
        match_annotations (s :: rest) m
          = Except.error (Error.opt "annotation" s ("\n" ++ e.render)))
    ∧ (∀ (fr : String → Except String String)
        (yp : String → Except String Manifest) (path e : String),
        fr path = Except.error e →
        parse_metadata fr yp (String.mk ('@' :: path.data))
          = Except.error
              (Error.opt "metadata-from-manifest"
                (String.mk ('@' :: path.data)) e))
    ∧ ∀ (fr : String → Except String String)
        (yp : String → Except String Manifest) (input : String) (e : String),
        input.data.head? ≠ some '@' →
        yp input = Except.error e →
        parse_metadata fr yp input = Except.error (Error.unknown e) := by
  refine ⟨?_, ?_, ?_, ?_⟩
  · intro m s rest e h
    simp [match_labels, h]
  · intro m s rest e h
    simp [match_annotations, h]
  · intro fr yp path e h
    have hred : parse_metadata fr yp (String.mk ('@' :: path.data))
        = (match fr path with
           | Except.error err =>
             Except.error
               (Error.opt "metadata-from-manifest"
                 (String.mk ('@' :: path.data)) err)
           | Except.ok content =>
             match yp content with
             | Except.ok mf => Except.ok mf.metadata
             | Except.error err => Except.error (Error.unknown err)) := rfl
    rw [hred, h]
  · intro fr yp input e hh hy
    unfold parse_metadata
    split
    next rest heq =>
      exact absurd (by rw [heq]; rfl) hh
    next => rw [hy]

theorem option_error_amended_witness :
    match_labels ["nosep"] []
        = Except.error (Error.opt "labels" "nosep"
            ("\n" ++ PError.render { input := "nosep", reason := "missing separator" }))
    ∧ match_annotations ["bad"] []
        = Except.error (Error.opt "annotation" "bad"
            ("\n" ++ PError.render { input := "bad", reason := "missing separator" }))
    ∧ parse_metadata (fun _ => Except.error "no such file")
        (fun _ => Except.error "ignored") (String.mk ('@' :: "m.yaml".data))
        = Except.error (Error.opt "metadata-from-manifest"
            (String.mk ('@' :: "m.yaml".data)) "no such file")
    ∧ parse_metadata (fun _ => Except.ok "")
        (fun _ => Except.error "bad yaml") "k: v"
        = Except.error (Error.unknown "bad yaml") :=
  ⟨option_error_amended.1 [] "nosep" []
      { input := "nosep", reason := "missing separator" } rfl,
   option_error_amended.2.1 [] "bad" []
      { input := "bad", reason := "missing separator" } rfl,
   option_error_amended.2.2.1 (fun _ => Except.error "no such file")
      (fun _ => Except.error "ignored") "m.yaml" "no such file" rfl,
   option_error_amended.2.2.2 (fun _ => Except.ok "")
      (fun _ => Except.error "bad yaml") "k: v" "bad yaml" (by decide) rfl⟩

/-- C1 amended: the wire payload carries the vault_config field exactly
when the accounts list is nonempty, because the serde skip uses is_empty,
which ignores include_default; assuming the extra-properties bag does not
itself carry a vault_config key. -/
theorem vault_config_presence (d : NSDef)
    (hx : hasKey d.extra_properties "vault_config" = false) :
    hasKey (serializeNSDef d) "vault_config" = false
      ↔ d.vault_service_accounts.service_accounts = [] := by
  have happ : ∀ (l1 l2 : List (String × JVal)) (k : String),
      hasKey (l1 ++ l2) k = (hasKey l1 k || hasKey l2 k) := by
    intro l1 l2 k
    simp [hasKey]
  have hA : hasKey [("productkey", JVal.str d.productkey),
      ("ttl", JVal.str d.ttl), ("cluster", JVal.str d.cluster),
      ("namespace", JVal.str d.namespace_)] "vault_config" = false := rfl
  have hL : hasKey
      (if d.labels.isEmpty then []
       else [("labels", serializeKVList d.labels)]) "vault_config" = false := by
    split
    · rfl
    · rfl
  have hAn : hasKey
      (if d.annotations.isEmpty then []
       else [("annotations", serializeKVList d.annotations)]) "vault_config"
      = false := by
    split
    · rfl
    · rfl
  have hV : hasKey
      (if d.vault_service_accounts.is_empty then []
       else [("vault_config", serializeVSA d.vault_service_accounts)])
      "vault_config" = !d.vault_service_accounts.is_empty := by
    split
    next h =>
      rw [h]
      rfl
    next h =>
      have hb : d.vault_service_accounts.is_empty = false := by
        cases hcase : d.vault_service_accounts.is_empty
        · rfl
        · exact absurd hcase h
      rw [hb]
      rfl
  unfold serializeNSDef
  rw [happ, happ, happ, happ, hA, hL, hAn, hV, hx]
  simp [VaultServiceAccounts.is_empty, List.isEmpty_iff]

theorem vault_config_presence_witness :
    hasKey (serializeNSDef exampleDef) "vault_config" = false
      ↔ exampleDef.vault_service_accounts.service_accounts = [] :=
  vault_config_presence exampleDef rfl

/-- C1 counterexample: the default vault accumulator renders to the
nonempty string default-comma, yet the serialized payload omits the
vault_config field, because is_empty looks only at the accounts list. -/
theorem vault_config_presence_counterexample :
    hasKey (serializeNSDef exampleDef) "vault_config" = false
    ∧ exampleDef.vault_service_accounts.service_accounts_string = "default," :=
  ⟨rfl, by decide⟩
